import Mathlib

/-!
# Verification of the GitHub IP-range checker

Shallow embedding of `main.go` of `gclhub/gh-check-github-ip-ranges` and of
the Go standard-library routines it calls (`net.ParseIP`, `IP.To4`,
`net.ParseCIDR`, `IPNet.Contains`, the routability predicates, and
`encoding/json` decoding into the `GitHubMeta` struct).

Byte slices (`net.IP`, `net.IPMask`) are modelled as `List Nat` whose
elements are below 256 by construction.  The HTTP layer is modelled by an
explicit `HttpResult` value describing what one GET of the meta endpoint
would return; the stateful `CheckIP` method returns the updated checker
together with the number of network fetches it performed (0 or 1).
-/

deriving instance DecidableEq for Except

/-- Model of Go's `net.ParseIP` result for a dotted-decimal address or for
the first 12 bytes of `As16` of an IPv4 address: the IPv4-in-IPv6 marker
bytes `0,0,0,0,0,0,0,0,0,0,0xff,0xff` (Go's `v4InV6` constant). -/
def v4InV6 : List Nat := [0, 0, 0, 0, 0, 0, 0, 0, 0, 0, 255, 255]

/-- Go `IP.To4`: a 4-byte slice is returned unchanged; a 16-byte slice is
reduced to its last four bytes when the first twelve are the IPv4-in-IPv6
marker; anything else yields `nil` (modelled as `none`). -/
def to4 (ip : List Nat) : Option (List Nat) :=
  if ip.length = 4 then some ip
  else if ip.length = 16 ∧ ip.take 12 = v4InV6 then some (ip.drop 12)
  else none

/-- One step of Go `netip.parseIPv4Fields`: the character-level loop over a
dotted-decimal IPv4 literal.  State: remaining input, current field value,
number of digits read in the current field, completed fields. -/
def parseV4Loop : List Char → Nat → Nat → List Nat → Option (List Nat)
  | [], val, _, fields =>
    -- end of string: Go requires pos == 3 and stores the final field
    if fields.length < 3 then none else some (fields ++ [val])
  | ch :: rest, val, digLen, fields =>
    if '0' ≤ ch ∧ ch ≤ '9' then
      -- Go rejects a second digit after a leading zero
      if digLen = 1 ∧ val = 0 then none
      else
        let val' := val * 10 + (ch.toNat - '0'.toNat)
        if val' > 255 then none
        else parseV4Loop rest val' (digLen + 1) fields
    else if ch = '.' then
      if digLen = 0 then none            -- empty field (leading dot or "..")
      else if rest = [] then none        -- trailing dot
      else if fields.length = 3 then none  -- a fifth field
      else parseV4Loop rest 0 0 (fields ++ [val])
    else none                            -- unexpected character

/-- Go `netip.parseIPv4` (without the zone handling `net.ParseIP` rejects
anyway): four decimal fields, each 0–255, no leading zeros. -/
def parseIPv4Go (cs : List Char) : Option (List Nat) :=
  parseV4Loop cs 0 0 []

/-- Hex digit value, with the same accepted characters as Go's IPv6 field
loop (`0-9`, `a-f`, `A-F`). -/
def hexDigitVal (ch : Char) : Option Nat :=
  if '0' ≤ ch ∧ ch ≤ '9' then some (ch.toNat - '0'.toNat)
  else if 'a' ≤ ch ∧ ch ≤ 'f' then some (ch.toNat - 'a'.toNat + 10)
  else if 'A' ≤ ch ∧ ch ≤ 'F' then some (ch.toNat - 'A'.toNat + 10)
  else none

/-- The hex-number sub-loop of Go `netip.parseIPv6`: consume hex digits,
failing as soon as the accumulator exceeds `MaxUint16`.  Returns the value,
the number of characters consumed, and the rest of the input. -/
def parseHexGroup : List Char → Nat → Nat → Option (Nat × Nat × List Char)
  | [], acc, off => some (acc, off, [])
  | ch :: rest, acc, off =>
    match hexDigitVal ch with
    | none => some (acc, off, ch :: rest)
    | some d =>
      let acc' := acc * 16 + d
      if acc' > 65535 then none else parseHexGroup rest acc' (off + 1)

/-- The main loop of Go `netip.parseIPv6`.  State: remaining input, bytes
accumulated so far (Go's `ip[0:i]`), position of the `::` ellipsis if one
was seen.  Returns the accumulated bytes, the ellipsis position and the
unconsumed input.  The fuel argument only bounds the recursion: each
iteration appends two bytes and the loop runs while fewer than 16 bytes are
present, so 9 units are never exhausted. -/
def parseV6Loop : Nat → List Char → List Nat → Option Nat →
    Option (List Nat × Option Nat × List Char)
  | 0, _, _, _ => none
  | fuel + 1, s, ip, ell =>
    if ip.length ≥ 16 then some (ip, ell, s)
    else
      match parseHexGroup s 0 0 with
      | none => none                       -- field value ≥ 2^16
      | some (acc, off, rest) =>
        if off = 0 then none               -- field with no digits
        else
          match rest with
          | '.' :: _ =>
            -- trailing embedded IPv4, parsed from the start of this field
            if ell = none ∧ ip.length ≠ 12 then none
            else if ip.length + 4 > 16 then none
            else
              match parseIPv4Go s with
              | none => none
              | some f4 => some (ip ++ f4, ell, [])
          | _ =>
            let ip' := ip ++ [acc / 256, acc % 256]
            match rest with
            | [] => some (ip', ell, [])
            | ':' :: [] => none            -- colon must be followed by more
            | ':' :: ':' :: rest2 =>
              if ell.isSome then none      -- at most one ellipsis
              else
                match rest2 with
                | [] => some (ip', some ip'.length, [])
                | _ :: _ => parseV6Loop fuel rest2 ip' (some ip'.length)
            | ':' :: rest2 => parseV6Loop fuel rest2 ip' ell
            | _ => none                    -- unexpected character

/-- Post-processing of Go `netip.parseIPv6`: reject unconsumed input,
expand the ellipsis (which must stand for at least one zero group). -/
def finishV6 : Option (List Nat × Option Nat × List Char) → Option (List Nat)
  | none => none
  | some (ip, ell, rem) =>
    if rem ≠ [] then none
    else if ip.length < 16 then
      match ell with
      | none => none
      | some e => some (ip.take e ++ List.replicate (16 - ip.length) 0 ++ ip.drop e)
    else if ell.isSome then none
    else some ip

/-- Go `netip.parseIPv6` as used by `net.ParseIP`: a `%` zone always makes
`net.ParseIP` fail (empty zones are parse errors, non-empty zones are
rejected by `ParseIP` itself), so it is rejected up front. -/
def parseIPv6 (cs : List Char) : Option (List Nat) :=
  if cs.contains '%' then none
  else
    match cs with
    | ':' :: ':' :: rest =>
      if rest = [] then some (List.replicate 16 0)
      else finishV6 (parseV6Loop 9 rest [] (some 0))
    | _ => finishV6 (parseV6Loop 9 cs [] none)

/-- The dispatch loop of Go `netip.ParseAddr`: the first `.`, `:` or `%`
decides how the string is parsed. -/
def firstSpecial : List Char → Option Char
  | [] => none
  | ch :: rest =>
    if ch = '.' ∨ ch = ':' ∨ ch = '%' then some ch else firstSpecial rest

/-- Go `netip.ParseAddr` (zones excluded): the 16-byte `As16` form together
with the flag telling whether the address was parsed as a dotted-decimal
IPv4 literal (Go's `Is4`, which fixes `BitLen`). -/
def parseAddr (cs : List Char) : Option (List Nat × Bool) :=
  match firstSpecial cs with
  | some c =>
    if c = '.' then (parseIPv4Go cs).map (fun f => (v4InV6 ++ f, true))
    else if c = ':' then (parseIPv6 cs).map (fun b => (b, false))
    else none
  | none => none

/-- Go `net.ParseIP`: the parsed address in its 16-byte `As16` form, or
`none` for the `nil` result. -/
def ParseIP (s : String) : Option (List Nat) :=
  (parseAddr s.toList).map Prod.fst

/-- Go `net.IPNet`: network number and mask, each a byte slice. -/
structure IPNet where
  ip : List Nat
  mask : List Nat
deriving DecidableEq

/-- Go `net.CIDRMask` restricted to its callers here: a mask of `l` bytes
with `ones` leading one bits. -/
def cidrMask (ones : Nat) : Nat → List Nat
  | 0 => []
  | l + 1 =>
    if ones ≥ 8 then 255 :: cidrMask (ones - 8) l
    else (255 - (255 >>> ones)) :: cidrMask 0 l

/-- Go `IP.Mask`: adjust slice lengths exactly as the source does, then AND
byte-wise; a length mismatch yields `nil` (modelled as `[]`). -/
def maskIP (ip : List Nat) (mask : List Nat) : List Nat :=
  let mask' :=
    if mask.length = 16 ∧ ip.length = 4 ∧ mask.take 12 = List.replicate 12 255
    then mask.drop 12 else mask
  let ip' :=
    if mask'.length = 4 ∧ ip.length = 16 ∧ ip.take 12 = v4InV6
    then ip.drop 12 else ip
  if ip'.length ≠ mask'.length then []
  else List.zipWith (fun a b => a &&& b) ip' mask'

/-- The digit-string parser Go `net.dtoi` (decimal, cutoff `0xFFFFFF`):
value and number of characters consumed, `none` for the `ok = false`
outcomes (no digits, overflow). -/
def dtoi : List Char → Nat → Nat → Option (Nat × Nat)
  | [], n, i => if i = 0 then none else some (n, i)
  | ch :: rest, n, i =>
    if '0' ≤ ch ∧ ch ≤ '9' then
      let n' := n * 10 + (ch.toNat - '0'.toNat)
      if n' ≥ 16777215 then none else dtoi rest n' (i + 1)
    else if i = 0 then none else some (n, i)

/-- Split at the first `/`, as `net.ParseCIDR` does. -/
def splitSlash : List Char → Option (List Char × List Char)
  | [] => none
  | ch :: rest =>
    if ch = '/' then some ([], rest)
    else (splitSlash rest).map (fun p => (ch :: p.1, p.2))

/-- Go `net.ParseCIDR`, keeping only the `*IPNet` result `CheckIP` uses:
address before the slash parsed by `netip.ParseAddr`, prefix length parsed
by `dtoi`, bounded by the address's `BitLen`. -/
def ParseCIDR (s : String) : Option IPNet :=
  match splitSlash s.toList with
  | none => none
  | some (addr, mask) =>
    match parseAddr addr with
    | none => none
    | some (a16, is4) =>
      let bitLen := if is4 then 32 else 128
      match dtoi mask 0 0 with
      | none => none
      | some (n, i) =>
        if i = mask.length ∧ n ≤ bitLen then
          let m := cidrMask n (bitLen / 8)
          some ⟨maskIP a16 m, m⟩
        else none

/-- Go `net.networkNumberAndMask`: normalize the network number via `To4`
and align a 16-byte mask with a 4-byte network number. -/
def networkNumberAndMask (nw : IPNet) : Option (List Nat × List Nat) :=
  match to4 nw.ip with
  | some ip4 =>
    match nw.mask.length with
    | 4 => some (ip4, nw.mask)
    | 16 => some (ip4, nw.mask.drop 12)
    | _ => none
  | none =>
    if nw.ip.length ≠ 16 then none
    else
      match nw.mask.length with
      | 16 => some (nw.ip, nw.mask)
      | _ => none

/-- The byte-wise comparison loop of Go `IPNet.Contains`; the network
number and the mask always have equal length by construction of `IPNet`
values, so the parallel match is the Go index loop. -/
def maskedEq : List Nat → List Nat → List Nat → Bool
  | [], [], [] => true
  | n :: ns, m :: ms, b :: bs => (n &&& m == b &&& m) && maskedEq ns ms bs
  | _, _, _ => false

/-- Go `IPNet.Contains`. -/
def containsIP (nw : IPNet) (ip : List Nat) : Bool :=
  let ip' := (to4 ip).getD ip
  match networkNumberAndMask nw with
  | none => ip'.length == 0
  | some (nn, m) => ip'.length == nn.length && maskedEq nn m ip'

/-- Go `IP.IsPrivate` on the 4-byte form `CheckIP` works with. -/
def isPrivate (ip4 : List Nat) : Bool :=
  match ip4 with
  | [a, b, _, _] =>
    a == 10 || (a == 172 && b &&& 240 == 16) || (a == 192 && b == 168)
  | _ => false

/-- Go `IP.IsLoopback` on the 4-byte form. -/
def isLoopback (ip4 : List Nat) : Bool :=
  match ip4 with
  | [a, _, _, _] => a == 127
  | _ => false

/-- Go `IP.IsUnspecified` on the 4-byte form (`Equal(IPv4zero)`). -/
def isUnspecified (ip4 : List Nat) : Bool :=
  ip4 == [0, 0, 0, 0]

/-- Go `IP.IsMulticast` on the 4-byte form. -/
def isMulticast (ip4 : List Nat) : Bool :=
  match ip4 with
  | [a, _, _, _] => a &&& 240 == 224
  | _ => false

/-- `isBroadcastAddress` from `main.go`: every byte of the slice is 255. -/
def isBroadcastAddress (ip : List Nat) : Bool :=
  ip.all (fun x => x == 255)

/-- The `GitHubMeta` struct of `main.go`: the ten category fields of the
`/meta` response. -/
structure GitHubMeta where
  Hooks : List String
  Web : List String
  Api : List String
  Git : List String
  Packages : List String
  Pages : List String
  Importer : List String
  Actions : List String
  Dependabot : List String
  ActionsIPv4 : List String
deriving DecidableEq

/-- The `CheckResult` struct of `main.go`. -/
structure CheckResult where
  IsGitHubIP : Bool
  FunctionalArea : String
  Range : String
deriving DecidableEq

/-- The `IPChecker` struct of `main.go`: the memoized meta, `nil` before
the first successful fetch. -/
structure IPChecker where
  meta : Option GitHubMeta
deriving DecidableEq

/-- `NewIPChecker` from `main.go`. -/
def NewIPChecker : IPChecker := ⟨none⟩

/-- The distinct fetch failure modes of `fetchGitHubMeta`. -/
inductive FetchError where
  | transport
  | badStatus (code : Nat)
  | decode
deriving DecidableEq

/-- The distinct error outcomes of `CheckIP` (each a distinct formatted
error message in the Go source). -/
inductive CheckError where
  | invalidFormat
  | notIPv4
  | notRoutable
  | fetchFailed (e : FetchError)
deriving DecidableEq

/-- A JSON document, as far as decoding the meta response needs. -/
inductive Json where
  | null
  | bool (b : Bool)
  | num (n : Int)
  | str (s : String)
  | arr (elems : List Json)
  | obj (members : List (String × Json))

/-- What one HTTP GET of the meta endpoint returns: a transport failure, or
a response with a status code and a body (`none` models a body that is not
well-formed JSON at all). -/
inductive HttpResult where
  | transportError
  | response (status : Nat) (body : Option Json)

/-- `encoding/json` decoding of one array element into a Go `string`: a
JSON string is taken as is, JSON `null` leaves the zero value `""`,
anything else is a type error. -/
def decodeStringElem : Json → Option String
  | .str s => some s
  | .null => some ""
  | _ => none

/-- `encoding/json` decoding into a Go `[]string`: `null` leaves the nil
slice, an array is decoded element-wise, anything else is a type error. -/
def decodeStringList : Json → Option (List String)
  | .null => some []
  | .arr xs => xs.mapM decodeStringElem
  | _ => none

/-- ASCII lower-casing of one character. -/
def asciiLowerChar (ch : Char) : Char :=
  if 'A' ≤ ch ∧ ch ≤ 'Z' then Char.ofNat (ch.toNat + 32) else ch

/-- ASCII lower-casing of a key, modelling `encoding/json`'s
case-insensitive matching of object keys against the (all lower-case,
all ASCII) field tags of `GitHubMeta`. -/
def asciiLower (s : String) : String :=
  String.mk (s.toList.map asciiLowerChar)

/-- The JSON tags of the ten `GitHubMeta` fields, in struct order. -/
def fieldTags : List String :=
  ["hooks", "web", "api", "git", "packages", "pages", "importer",
   "actions", "dependabot", "actions_ipv4"]

/-- Processing of one object member by `encoding/json`: a key matching a
field tag decodes its value into that field (a type error fails the whole
decode), any other key is ignored. -/
def applyKey (m : GitHubMeta) (k : String) (v : Json) : Option GitHubMeta :=
  let tag := asciiLower k
  if tag = "hooks" then (decodeStringList v).map (fun l => { m with Hooks := l })
  else if tag = "web" then (decodeStringList v).map (fun l => { m with Web := l })
  else if tag = "api" then (decodeStringList v).map (fun l => { m with Api := l })
  else if tag = "git" then (decodeStringList v).map (fun l => { m with Git := l })
  else if tag = "packages" then (decodeStringList v).map (fun l => { m with Packages := l })
  else if tag = "pages" then (decodeStringList v).map (fun l => { m with Pages := l })
  else if tag = "importer" then (decodeStringList v).map (fun l => { m with Importer := l })
  else if tag = "actions" then (decodeStringList v).map (fun l => { m with Actions := l })
  else if tag = "dependabot" then (decodeStringList v).map (fun l => { m with Dependabot := l })
  else if tag = "actions_ipv4" then (decodeStringList v).map (fun l => { m with ActionsIPv4 := l })
  else some m

/-- Folding the object members in order, starting from the zero struct,
as `encoding/json` does; a later duplicate key overwrites an earlier one. -/
def decodeObj : GitHubMeta → List (String × Json) → Option GitHubMeta
  | m, [] => some m
  | m, (k, v) :: rest =>
    match applyKey m k v with
    | none => none
    | some m2 => decodeObj m2 rest

/-- The zero value of `GitHubMeta` (`var meta GitHubMeta` in the source). -/
def emptyMeta : GitHubMeta := ⟨[], [], [], [], [], [], [], [], [], []⟩

/-- `encoding/json` decoding of a whole document into `GitHubMeta`: an
object is folded member by member, a top-level `null` leaves the zero
struct, any other document is a type error. -/
def decodeGitHubMeta : Json → Option GitHubMeta
  | .obj kvs => decodeObj emptyMeta kvs
  | .null => some emptyMeta
  | _ => none

/-- `fetchGitHubMeta` from `main.go`, with the single HTTP GET replaced by
the `HttpResult` value describing what the network would return. -/
def fetchGitHubMeta (r : HttpResult) : Except FetchError GitHubMeta :=
  match r with
  | .transportError => .error .transport
  | .response code body =>
    if code ≠ 200 then .error (.badStatus code)
    else
      match body with
      | none => .error .decode
      | some j =>
        match decodeGitHubMeta j with
        | none => .error .decode
        | some m => .ok m

/-- The fixed ordered category table built inside `CheckIP`. -/
def categoryList (m : GitHubMeta) : List (String × List String) :=
  [("Hooks", m.Hooks), ("Web", m.Web), ("API", m.Api), ("Git", m.Git),
   ("Packages", m.Packages), ("Pages", m.Pages), ("Importer", m.Importer),
   ("Actions", m.Actions), ("Dependabot", m.Dependabot),
   ("Actions IPv4", m.ActionsIPv4)]

/-- The inner loop of `CheckIP` over one category's CIDR entries: a
malformed entry is skipped (`continue`), the first parseable entry
containing the address ends the whole scan. -/
def scanEntries (name : String) (ip4 : List Nat) : List String → Option CheckResult
  | [] => none
  | cidr :: rest =>
    match ParseCIDR cidr with
    | none => scanEntries name ip4 rest
    | some ipNet =>
      if containsIP ipNet ip4 then some ⟨true, name, cidr⟩
      else scanEntries name ip4 rest

/-- The outer loop of `CheckIP` over the category table. -/
def scanCats (ip4 : List Nat) : List (String × List String) → Option CheckResult
  | [] => none
  | c :: rest =>
    match scanEntries c.1 ip4 c.2 with
    | some r => some r
    | none => scanCats ip4 rest

/-- The classification pass of `CheckIP`: first match over the category
table, else the negative `CheckResult{IsGitHubIP: false}` (all other
fields at their zero value `""`). -/
def checkRanges (m : GitHubMeta) (ip4 : List Nat) : CheckResult :=
  (scanCats ip4 (categoryList m)).getD ⟨false, "", ""⟩

/-- The validation prefix of `CheckIP` (lines 141–156 of `main.go`):
parse, reduce to 4-octet form, reject non-routable addresses. -/
def validateIP (ipStr : String) : Except CheckError (List Nat) :=
  match ParseIP ipStr with
  | none => .error .invalidFormat
  | some ip =>
    match to4 ip with
    | none => .error .notIPv4
    | some ip4 =>
      if isPrivate ip4 || isLoopback ip4 || isUnspecified ip4 ||
         isMulticast ip4 || isBroadcastAddress ip4
      then .error .notRoutable
      else .ok ip4

/-- `CheckIP` from `main.go` as a state-passing function: the checker after
the call, the number of network fetches performed, and the returned
result-or-error. -/
def CheckIP (c : IPChecker) (http : HttpResult) (ipStr : String) :
    IPChecker × Nat × Except CheckError CheckResult :=
  match validateIP ipStr with
  | .error e => (c, 0, .error e)
  | .ok ip4 =>
    match c.meta with
    | some m => (c, 0, .ok (checkRanges m ip4))
    | none =>
      match fetchGitHubMeta http with
      | .error e => (c, 1, .error (.fetchFailed e))
      | .ok m => (⟨some m⟩, 1, .ok (checkRanges m ip4))

/-- Whether one `(category, CIDR-string)` entry is parseable and contains
the address — the per-entry test of the matching algorithm. -/
def entryMatches (ip4 : List Nat) (e : String × String) : Bool :=
  match ParseCIDR e.2 with
  | some nw => containsIP nw ip4
  | none => false

/-- A category table flattened to `(category, entry)` pairs, categories in
table order and entries in source order. -/
def entriesOf : List (String × List String) → List (String × String)
  | [] => []
  | c :: rest => c.2.map (fun r => (c.1, r)) ++ entriesOf rest

/-- The declared-order flattening of the ten fixed categories. -/
def flatEntries (m : GitHubMeta) : List (String × String) :=
  entriesOf (categoryList m)

/-- The result dictated by the first matching entry in declared order:
positive with that entry's category and exact CIDR string, otherwise the
negative result with empty category and range. -/
def firstMatchResult (m : GitHubMeta) (ip4 : List Nat) : CheckResult :=
  match (flatEntries m).find? (entryMatches ip4) with
  | some e => ⟨true, e.1, e.2⟩
  | none => ⟨false, "", ""⟩

/-- Whether a range entry parses as a CIDR block. -/
def parseableRange (r : String) : Bool :=
  (ParseCIDR r).isSome

/-- The same meta with every unparseable entry removed from every
category. -/
def filterMeta (m : GitHubMeta) : GitHubMeta :=
  ⟨m.Hooks.filter parseableRange, m.Web.filter parseableRange,
   m.Api.filter parseableRange, m.Git.filter parseableRange,
   m.Packages.filter parseableRange, m.Pages.filter parseableRange,
   m.Importer.filter parseableRange, m.Actions.filter parseableRange,
   m.Dependabot.filter parseableRange, m.ActionsIPv4.filter parseableRange⟩

/-- The last value an object's member list gives for a (case-folded) key. -/
def lastTagValue (kvs : List (String × Json)) (tag : String) : Option Json :=
  (kvs.reverse.find? (fun p => asciiLower p.1 == tag)).map Prod.snd

/-- The field value dictated by a member list: the decoded last value
supplied for the tag, or the given current value when the tag is absent. -/
def updField (kvs : List (String × Json)) (tag : String) (cur : List String) :
    List String :=
  match lastTagValue kvs tag with
  | some v => (decodeStringList v).getD cur
  | none => cur

/-- The field value decoding an object gives a tag: the decoded last value
supplied for it, or the empty list when the object omits it. -/
def specField (kvs : List (String × Json)) (tag : String) : List String :=
  updField kvs tag []

/-- A meta with given Hooks, API and Git categories and all other
categories empty, used for concrete instances. -/
def sampleMeta (hooks api git : List String) : GitHubMeta :=
  ⟨hooks, [], api, git, [], [], [], [], [], []⟩

/-- `find?` on an append scans the left list first. -/
theorem find?_append_split {α : Type} (p : α → Bool) (l1 l2 : List α) :
    (l1 ++ l2).find? p =
      match l1.find? p with
      | some a => some a
      | none => l2.find? p := by
  induction l1 with
  | nil => rfl
  | cons a l ih => cases hpa : p a <;> simp [List.find?, hpa, ih]

/-- `find?` over a map pairing every entry with a fixed category name. -/
theorem find?_map_pair (ip4 : List Nat) (name : String) (rs : List String) :
    (rs.map (fun r => (name, r))).find? (entryMatches ip4) =
      (rs.find? (fun r => entryMatches ip4 (name, r))).map (fun r => (name, r)) := by
  induction rs with
  | nil => rfl
  | cons r rest ih => cases hm : entryMatches ip4 (name, r) <;> simp [List.find?, hm, ih]

/-- The inner `CheckIP` loop returns the first matching entry of the
category, skipping unparseable entries. -/
theorem scanEntries_eq (name : String) (ip4 : List Nat) (rs : List String) :
    scanEntries name ip4 rs =
      (rs.find? (fun r => entryMatches ip4 (name, r))).map
        (fun r => (⟨true, name, r⟩ : CheckResult)) := by
  induction rs with
  | nil => rfl
  | cons r rest ih =>
    cases hp : ParseCIDR r with
    | none =>
      have hm : entryMatches ip4 (name, r) = false := by simp [entryMatches, hp]
      simp [scanEntries, hp, List.find?, hm, ih]
    | some nw =>
      cases hc : containsIP nw ip4
      · have hm : entryMatches ip4 (name, r) = false := by simp [entryMatches, hp, hc]
        simp [scanEntries, hp, hc, List.find?, hm, ih]
      · have hm : entryMatches ip4 (name, r) = true := by simp [entryMatches, hp, hc]
        simp [scanEntries, hp, hc, List.find?, hm]

/-- The outer `CheckIP` loop returns the first matching entry of the
flattened category table. -/
theorem scanCats_eq (ip4 : List Nat) (cats : List (String × List String)) :
    scanCats ip4 cats =
      ((entriesOf cats).find? (entryMatches ip4)).map
        (fun e => (⟨true, e.1, e.2⟩ : CheckResult)) := by
  induction cats with
  | nil => rfl
  | cons c rest ih =>
    rw [scanCats, scanEntries_eq, entriesOf, find?_append_split, find?_map_pair]
    cases hf : c.2.find? (fun r => entryMatches ip4 (c.1, r)) <;> simp [hf, ih]

/-- The classification pass is the declared-order first match. -/
theorem checkRanges_eq (m : GitHubMeta) (ip4 : List Nat) :
    checkRanges m ip4 = firstMatchResult m ip4 := by
  rw [checkRanges, scanCats_eq, firstMatchResult, flatEntries]
  cases hf : (entriesOf (categoryList m)).find? (entryMatches ip4) <;> simp [hf]

/-- Filtering by a predicate implied by the search predicate does not
change `find?`. -/
theorem find?_filter_of_imp {α : Type} (p q : α → Bool) (l : List α)
    (h : ∀ x, p x = true → q x = true) :
    (l.filter q).find? p = l.find? p := by
  induction l with
  | nil => rfl
  | cons a l ih =>
    cases hq : q a
    · have hp : p a = false := by
        cases hpa : p a
        · rfl
        · exact absurd (h a hpa) (by simp [hq])
      simp [List.filter, hq, List.find?, hp, ih]
    · cases hpa : p a <;> simp [List.filter, hq, List.find?, hpa, ih]

/-- A matching entry is in particular parseable. -/
theorem entryMatches_parseable (ip4 : List Nat) (e : String × String)
    (h : entryMatches ip4 e = true) : parseableRange e.2 = true := by
  unfold entryMatches at h
  unfold parseableRange
  cases hp : ParseCIDR e.2
  · rw [hp] at h; exact absurd h (by simp)
  · simp [hp]

/-- Filtering entries commutes with pairing them with the category name. -/
theorem filter_map_pair (name : String) (rs : List String) :
    (rs.map (fun r => (name, r))).filter (fun e => parseableRange e.2) =
      (rs.filter parseableRange).map (fun r => (name, r)) := by
  induction rs with
  | nil => rfl
  | cons r rest ih => cases hr : parseableRange r <;> simp [List.filter, hr, ih]

/-- Flattening the filtered meta is filtering the flattened entries. -/
theorem flatEntries_filterMeta (m : GitHubMeta) :
    flatEntries (filterMeta m) = (flatEntries m).filter (fun e => parseableRange e.2) := by
  simp [flatEntries, filterMeta, categoryList, entriesOf, filter_map_pair,
    List.filter_append]

/-- Dropping the unparseable entries does not change the classification
result. -/
theorem checkRanges_filterMeta (m : GitHubMeta) (ip4 : List Nat) :
    checkRanges m ip4 = checkRanges (filterMeta m) ip4 := by
  rw [checkRanges_eq, checkRanges_eq, firstMatchResult, firstMatchResult,
    flatEntries_filterMeta,
    find?_filter_of_imp _ _ _ (fun e he => entryMatches_parseable ip4 e he)]

/-- C1: for every validated IPv4 address and every available range set
(memoized or just fetched), `CheckIP` returns the result dictated by the
first matching entry in the fixed declared category order Hooks, Web, API,
Git, Packages, Pages, Importer, Actions, Dependabot, Actions IPv4, with
entries in source order inside each category, reporting that entry's exact
CIDR string; in particular an address matching both API and Git is
reported as API. -/
theorem CheckIP_first_match_in_declared_order
    (c : IPChecker) (http : HttpResult) (s : String) (ip4 : List Nat) (m : GitHubMeta)
    (hv : validateIP s = Except.ok ip4)
    (hm : c.meta = some m ∨ (c.meta = none ∧ fetchGitHubMeta http = Except.ok m)) :
    (CheckIP c http s).2.2 = Except.ok (firstMatchResult m ip4) := by
  rcases hm with hm | ⟨hn, hf⟩
  · simp [CheckIP, hv, hm, checkRanges_eq]
  · simp [CheckIP, hv, hn, hf, checkRanges_eq]

/-- Witness for C1: with overlapping ranges in both API and Git, the
reported category is API with the exact matched CIDR string. -/
theorem CheckIP_first_match_in_declared_order_witness :
    validateIP "140.82.113.4" = Except.ok [140, 82, 113, 4] ∧
    (CheckIP ⟨some (sampleMeta [] ["140.82.112.0/20"] ["140.82.112.0/20"])⟩
        HttpResult.transportError "140.82.113.4").2.2 =
      Except.ok ⟨true, "API", "140.82.112.0/20"⟩ := by
  constructor
  · decide
  · have h := CheckIP_first_match_in_declared_order
      ⟨some (sampleMeta [] ["140.82.112.0/20"] ["140.82.112.0/20"])⟩
      HttpResult.transportError "140.82.113.4" [140, 82, 113, 4]
      (sampleMeta [] ["140.82.112.0/20"] ["140.82.112.0/20"])
      (by decide) (Or.inl rfl)
    rw [h]
    decide

/-- C2: with the range set available, `CheckIP` returns a result and never
an error, and the result is unchanged when every malformed (unparseable)
entry is removed: malformed entries are silently skipped and the first
match among the valid entries in declared order is returned. -/
theorem CheckIP_skips_malformed_entries
    (c : IPChecker) (http : HttpResult) (s : String) (ip4 : List Nat) (m : GitHubMeta)
    (hv : validateIP s = Except.ok ip4)
    (hm : c.meta = some m ∨ (c.meta = none ∧ fetchGitHubMeta http = Except.ok m)) :
    (CheckIP c http s).2.2 = Except.ok (checkRanges m ip4) ∧
    checkRanges m ip4 = checkRanges (filterMeta m) ip4 := by
  refine ⟨?_, checkRanges_filterMeta m ip4⟩
  rcases hm with hm | ⟨hn, hf⟩
  · simp [CheckIP, hv, hm]
  · simp [CheckIP, hv, hn, hf]

/-- Witness for C2: malformed entries interleaved with valid ones are
skipped and the first valid match is still found. -/
theorem CheckIP_skips_malformed_entries_witness :
    validateIP "192.30.252.1" = Except.ok [192, 30, 252, 1] ∧
    ((CheckIP ⟨some (sampleMeta ["not-a-cidr", "300.0.0.0/8", "192.30.252.0/22"] [] [])⟩
        HttpResult.transportError "192.30.252.1").2.2 =
      Except.ok (checkRanges (sampleMeta ["not-a-cidr", "300.0.0.0/8", "192.30.252.0/22"] [] [])
        [192, 30, 252, 1]) ∧
     checkRanges (sampleMeta ["not-a-cidr", "300.0.0.0/8", "192.30.252.0/22"] [] [])
        [192, 30, 252, 1] =
      checkRanges (filterMeta (sampleMeta ["not-a-cidr", "300.0.0.0/8", "192.30.252.0/22"] [] []))
        [192, 30, 252, 1]) ∧
    checkRanges (sampleMeta ["not-a-cidr", "300.0.0.0/8", "192.30.252.0/22"] [] [])
        [192, 30, 252, 1] = ⟨true, "Hooks", "192.30.252.0/22"⟩ := by
  refine ⟨by decide, ?_, by decide⟩
  exact CheckIP_skips_malformed_entries
    ⟨some (sampleMeta ["not-a-cidr", "300.0.0.0/8", "192.30.252.0/22"] [] [])⟩
    HttpResult.transportError "192.30.252.1" [192, 30, 252, 1]
    (sampleMeta ["not-a-cidr", "300.0.0.0/8", "192.30.252.0/22"] [] [])
    (by decide) (Or.inl rfl)

/-- C3: starting from a fresh checker, a first call with a successful
fetch performs exactly one fetch and memoizes the range set; a second call
on the resulting checker performs zero fetches (whatever the network would
now return) and reuses the memoized set. -/
theorem CheckIP_fetches_once
    (http1 http2 : HttpResult) (s1 s2 : String) (ip1 ip2 : List Nat) (m : GitHubMeta)
    (hv1 : validateIP s1 = Except.ok ip1) (hv2 : validateIP s2 = Except.ok ip2)
    (hf : fetchGitHubMeta http1 = Except.ok m) :
    CheckIP NewIPChecker http1 s1 = (⟨some m⟩, 1, Except.ok (checkRanges m ip1)) ∧
    CheckIP ⟨some m⟩ http2 s2 = (⟨some m⟩, 0, Except.ok (checkRanges m ip2)) := by
  constructor
  · simp [CheckIP, NewIPChecker, hv1, hf]
  · simp [CheckIP, hv2]

/-- Witness for C3: two sequential calls, one fetch in total; the second
call succeeds even though the network would now fail. -/
theorem CheckIP_fetches_once_witness :
    validateIP "192.30.252.1" = Except.ok [192, 30, 252, 1] ∧
    fetchGitHubMeta (HttpResult.response 200
        (some (Json.obj [("hooks", Json.arr [Json.str "192.30.252.0/22"])]))) =
      Except.ok (sampleMeta ["192.30.252.0/22"] [] []) ∧
    CheckIP NewIPChecker
        (HttpResult.response 200
          (some (Json.obj [("hooks", Json.arr [Json.str "192.30.252.0/22"])])))
        "192.30.252.1" =
      (⟨some (sampleMeta ["192.30.252.0/22"] [] [])⟩, 1,
        Except.ok (checkRanges (sampleMeta ["192.30.252.0/22"] [] []) [192, 30, 252, 1])) ∧
    CheckIP ⟨some (sampleMeta ["192.30.252.0/22"] [] [])⟩ HttpResult.transportError
        "192.30.252.1" =
      (⟨some (sampleMeta ["192.30.252.0/22"] [] [])⟩, 0,
        Except.ok (checkRanges (sampleMeta ["192.30.252.0/22"] [] []) [192, 30, 252, 1])) := by
  refine ⟨by decide, by decide, ?_⟩
  exact CheckIP_fetches_once
    (HttpResult.response 200
      (some (Json.obj [("hooks", Json.arr [Json.str "192.30.252.0/22"])])))
    HttpResult.transportError "192.30.252.1" "192.30.252.1"
    [192, 30, 252, 1] [192, 30, 252, 1] (sampleMeta ["192.30.252.0/22"] [] [])
    (by decide) (by decide) (by decide)

/-- C4: each fetch failure mode is surfaced as its own distinct error:
transport failure, non-success status carrying the code (500 included),
non-JSON body, and undecodable JSON body; and a fetch failure reaching
`CheckIP` is surfaced as a fetch error, never as a `CheckResult` or a
validation error. -/
theorem fetch_failure_modes_distinct :
    (fetchGitHubMeta HttpResult.transportError = Except.error FetchError.transport) ∧
    (∀ (code : Nat) (body : Option Json), code ≠ 200 →
      fetchGitHubMeta (HttpResult.response code body) =
        Except.error (FetchError.badStatus code)) ∧
    (fetchGitHubMeta (HttpResult.response 200 none) = Except.error FetchError.decode) ∧
    (∀ j : Json, decodeGitHubMeta j = none →
      fetchGitHubMeta (HttpResult.response 200 (some j)) = Except.error FetchError.decode) ∧
    (∀ (c : IPChecker) (http : HttpResult) (s : String) (ip4 : List Nat) (e : FetchError),
      validateIP s = Except.ok ip4 → c.meta = none →
      fetchGitHubMeta http = Except.error e →
      CheckIP c http s = (c, 1, Except.error (CheckError.fetchFailed e))) := by
  refine ⟨rfl, ?_, rfl, ?_, ?_⟩
  · intro code body hc
    simp [fetchGitHubMeta, hc]
  · intro j hj
    simp [fetchGitHubMeta, hj]
  · intro c http s ip4 e hv hn hf
    simp [CheckIP, hv, hn, hf]

/-- Witness for C4: HTTP 500 yields the status error carrying 500, a
non-JSON 200 body yields the decode error, and a failed fetch surfaces
through `CheckIP` as a fetch error. -/
theorem fetch_failure_modes_distinct_witness :
    fetchGitHubMeta (HttpResult.response 500 none) =
      Except.error (FetchError.badStatus 500) ∧
    fetchGitHubMeta (HttpResult.response 200 (some (Json.str "not json"))) =
      Except.error FetchError.decode ∧
    CheckIP NewIPChecker (HttpResult.response 500 none) "192.30.252.1" =
      (NewIPChecker, 1, Except.error (CheckError.fetchFailed (FetchError.badStatus 500))) :=
  ⟨fetch_failure_modes_distinct.2.1 500 none (by decide),
   fetch_failure_modes_distinct.2.2.2.1 (Json.str "not json") (by decide),
   fetch_failure_modes_distinct.2.2.2.2 NewIPChecker (HttpResult.response 500 none)
     "192.30.252.1" [192, 30, 252, 1] (FetchError.badStatus 500)
     (by decide) rfl (by decide)⟩

/-- C6: when validation rejects the input, `CheckIP` returns that
validation error, performs no network fetch, and leaves the checker's
cached range set unchanged. -/
theorem validation_error_no_fetch
    (c : IPChecker) (http : HttpResult) (s : String) (e : CheckError)
    (hv : validateIP s = Except.error e) :
    CheckIP c http s = (c, 0, Except.error e) := by
  simp [CheckIP, hv]

/-- Witness for C6: a malformed input is rejected with no fetch and an
unchanged cache. -/
theorem validation_error_no_fetch_witness :
    validateIP "invalid-ip" = Except.error CheckError.invalidFormat ∧
    CheckIP NewIPChecker HttpResult.transportError "invalid-ip" =
      (NewIPChecker, 0, Except.error CheckError.invalidFormat) :=
  ⟨by decide,
   validation_error_no_fetch NewIPChecker HttpResult.transportError "invalid-ip"
     CheckError.invalidFormat (by decide)⟩

/-- C7: when the fetch succeeds and no entry of any category matches, the
call returns the successful negative result — member flag false, empty
category and range — and not an error. -/
theorem no_match_negative_result
    (c : IPChecker) (http : HttpResult) (s : String) (ip4 : List Nat) (m : GitHubMeta)
    (hv : validateIP s = Except.ok ip4) (hc : c.meta = none)
    (hf : fetchGitHubMeta http = Except.ok m)
    (hno : ∀ e ∈ flatEntries m, entryMatches ip4 e = false) :
    CheckIP c http s = (⟨some m⟩, 1, Except.ok ⟨false, "", ""⟩) := by
  have hfind : (flatEntries m).find? (entryMatches ip4) = none :=
    List.find?_eq_none.mpr (fun e he => by simp [hno e he])
  have hneg : checkRanges m ip4 = ⟨false, "", ""⟩ := by
    rw [checkRanges_eq, firstMatchResult, hfind]
  simp [CheckIP, hv, hc, hf, hneg]

/-- Witness for C7: `8.8.8.8` matches no range of the fetched set. -/
theorem no_match_negative_result_witness :
    validateIP "8.8.8.8" = Except.ok [8, 8, 8, 8] ∧
    CheckIP NewIPChecker
        (HttpResult.response 200
          (some (Json.obj [("hooks", Json.arr [Json.str "192.30.252.0/22"])])))
        "8.8.8.8" =
      (⟨some (sampleMeta ["192.30.252.0/22"] [] [])⟩, 1,
        Except.ok ⟨false, "", ""⟩) :=
  ⟨by decide,
   no_match_negative_result NewIPChecker
     (HttpResult.response 200
       (some (Json.obj [("hooks", Json.arr [Json.str "192.30.252.0/22"])])))
     "8.8.8.8" [8, 8, 8, 8] (sampleMeta ["192.30.252.0/22"] [] [])
     (by decide) rfl (by decide) (by decide)⟩

/-- C9: when validation passes, the cache is empty and the fetch fails,
`CheckIP` surfaces the fetch error and leaves the cache unset, so any
subsequent call on the same checker performs the network fetch again. -/
theorem fetch_failure_leaves_cache_unset
    (c : IPChecker) (http : HttpResult) (s : String) (ip4 : List Nat) (e : FetchError)
    (hc : c.meta = none) (hv : validateIP s = Except.ok ip4)
    (hf : fetchGitHubMeta http = Except.error e) :
    CheckIP c http s = (c, 1, Except.error (CheckError.fetchFailed e)) ∧
    ∀ http2 : HttpResult, (CheckIP c http2 s).2.1 = 1 := by
  constructor
  · simp [CheckIP, hv, hc, hf]
  · intro http2
    cases hf2 : fetchGitHubMeta http2 <;> simp [CheckIP, hv, hc, hf2]

/-- Witness for C9: after a failed fetch the checker is unchanged and a
retry fetches again. -/
theorem fetch_failure_leaves_cache_unset_witness :
    CheckIP NewIPChecker HttpResult.transportError "192.30.252.1" =
      (NewIPChecker, 1, Except.error (CheckError.fetchFailed FetchError.transport)) ∧
    (CheckIP NewIPChecker (HttpResult.response 500 none) "192.30.252.1").2.1 = 1 := by
  have h := fetch_failure_leaves_cache_unset NewIPChecker HttpResult.transportError
    "192.30.252.1" [192, 30, 252, 1] FetchError.transport rfl (by decide) (by decide)
  exact ⟨h.1, h.2 (HttpResult.response 500 none)⟩

/-- C5: every address in 192.168.0.0/16 or 10.0.0.0/8 (private use), in
127.0.0.0/8 (loopback), the unspecified address 0.0.0.0, any address in
the multicast range 224.0.0.0/4, and the all-ones broadcast address
255.255.255.255 is rejected with the non-routable validation error and no
`CheckResult` is produced. -/
theorem nonroutable_rejected
    (c : IPChecker) (http : HttpResult) (s : String) (ip : List Nat) (a b c2 d : Nat)
    (hp : ParseIP s = some ip) (h4 : to4 ip = some [a, b, c2, d])
    (hr : (a = 192 ∧ b = 168) ∨ a = 10 ∨ a = 127 ∨
          (a = 0 ∧ b = 0 ∧ c2 = 0 ∧ d = 0) ∨ (224 ≤ a ∧ a ≤ 239) ∨
          (a = 255 ∧ b = 255 ∧ c2 = 255 ∧ d = 255)) :
    CheckIP c http s = (c, 0, Except.error CheckError.notRoutable) := by
  have hcond : (isPrivate [a, b, c2, d] || isLoopback [a, b, c2, d] ||
      isUnspecified [a, b, c2, d] || isMulticast [a, b, c2, d] ||
      isBroadcastAddress [a, b, c2, d]) = true := by
    rcases hr with ⟨ha, hb⟩ | ha | ha | ⟨ha, hb, hc', hd⟩ | ⟨h1, h2⟩ | ⟨ha, hb, hc', hd⟩
    · subst ha; subst hb; simp [isPrivate]
    · subst ha; simp [isPrivate]
    · subst ha; simp [isLoopback]
    · subst ha; subst hb; subst hc'; subst hd; simp [isUnspecified]
    · have hm : a &&& 240 = 224 := by interval_cases a <;> rfl
      simp [isMulticast, hm]
    · subst ha; subst hb; subst hc'; subst hd; simp [isBroadcastAddress]
  simp [CheckIP, validateIP, hp, h4, hcond]

/-- Witness for C5: one representative of each listed range is rejected
as non-routable. -/
theorem nonroutable_rejected_witness :
    ParseIP "192.168.1.1" = some [0, 0, 0, 0, 0, 0, 0, 0, 0, 0, 255, 255, 192, 168, 1, 1] ∧
    CheckIP NewIPChecker HttpResult.transportError "192.168.1.1" =
      (NewIPChecker, 0, Except.error CheckError.notRoutable) ∧
    CheckIP NewIPChecker HttpResult.transportError "10.0.0.1" =
      (NewIPChecker, 0, Except.error CheckError.notRoutable) ∧
    CheckIP NewIPChecker HttpResult.transportError "127.0.0.1" =
      (NewIPChecker, 0, Except.error CheckError.notRoutable) ∧
    CheckIP NewIPChecker HttpResult.transportError "0.0.0.0" =
      (NewIPChecker, 0, Except.error CheckError.notRoutable) ∧
    CheckIP NewIPChecker HttpResult.transportError "224.0.0.1" =
      (NewIPChecker, 0, Except.error CheckError.notRoutable) ∧
    CheckIP NewIPChecker HttpResult.transportError "255.255.255.255" =
      (NewIPChecker, 0, Except.error CheckError.notRoutable) :=
  ⟨by decide,
   nonroutable_rejected NewIPChecker HttpResult.transportError "192.168.1.1"
     (v4InV6 ++ [192, 168, 1, 1])
     192 168 1 1 (by decide) (by decide) (Or.inl ⟨rfl, rfl⟩),
   nonroutable_rejected NewIPChecker HttpResult.transportError "10.0.0.1"
     (v4InV6 ++ [10, 0, 0, 1])
     10 0 0 1 (by decide) (by decide) (Or.inr (Or.inl rfl)),
   nonroutable_rejected NewIPChecker HttpResult.transportError "127.0.0.1"
     (v4InV6 ++ [127, 0, 0, 1])
     127 0 0 1 (by decide) (by decide) (Or.inr (Or.inr (Or.inl rfl))),
   nonroutable_rejected NewIPChecker HttpResult.transportError "0.0.0.0"
     (v4InV6 ++ [0, 0, 0, 0])
     0 0 0 0 (by decide) (by decide)
     (Or.inr (Or.inr (Or.inr (Or.inl ⟨rfl, rfl, rfl, rfl⟩)))),
   nonroutable_rejected NewIPChecker HttpResult.transportError "224.0.0.1"
     (v4InV6 ++ [224, 0, 0, 1])
     224 0 0 1 (by decide) (by decide)
     (Or.inr (Or.inr (Or.inr (Or.inr (Or.inl ⟨by decide, by decide⟩))))),
   nonroutable_rejected NewIPChecker HttpResult.transportError "255.255.255.255"
     (v4InV6 ++ [255, 255, 255, 255])
     255 255 255 255 (by decide) (by decide)
     (Or.inr (Or.inr (Or.inr (Or.inr (Or.inr ⟨rfl, rfl, rfl, rfl⟩)))))⟩

/-- Counterexample for C8: `::ffff:8.8.8.8` is a syntactically valid IPv6
literal (the dispatch sends it to the IPv6 parser, which accepts it), yet
validation does not fail with the not-IPv4 error: Go's `To4` maps it to
`8.8.8.8` and `CheckIP` goes on to classify it, here successfully. -/
theorem ipv6_literal_counterexample :
    firstSpecial "::ffff:8.8.8.8".toList = some ':' ∧
    (parseIPv6 "::ffff:8.8.8.8".toList).isSome = true ∧
    (CheckIP ⟨some (sampleMeta ["8.8.8.0/24"] [] [])⟩ HttpResult.transportError
        "::ffff:8.8.8.8").2.2 = Except.ok ⟨true, "Hooks", "8.8.8.0/24"⟩ :=
  ⟨by decide, by decide, by decide⟩

/-- C8 (amended): every syntactically valid IPv6 literal that is not an
IPv4-mapped address (one `To4` does not reduce to a 4-octet form) is
rejected by validation with the not-IPv4 error and `CheckIP` returns no
result. -/
theorem ipv6_literal_not_ipv4
    (c : IPChecker) (http : HttpResult) (s : String) (bs : List Nat)
    (hd : firstSpecial s.toList = some ':')
    (hp6 : parseIPv6 s.toList = some bs)
    (hnm : to4 bs = none) :
    CheckIP c http s = (c, 0, Except.error CheckError.notIPv4) := by
  have hp6' : parseIPv6 s.data = some bs := hp6
  have hpa : parseAddr s.toList = some (bs, false) := by
    unfold parseAddr
    rw [hd]
    simp [hp6, hp6']
  have hp : ParseIP s = some bs := by
    rw [ParseIP, hpa]
    rfl
  simp [CheckIP, validateIP, hp, hnm]

/-- Witness for C8 (amended): `2001:db8::1` fails with the not-IPv4
error. -/
theorem ipv6_literal_not_ipv4_witness :
    firstSpecial "2001:db8::1".toList = some ':' ∧
    parseIPv6 "2001:db8::1".toList =
      some [32, 1, 13, 184, 0, 0, 0, 0, 0, 0, 0, 0, 0, 0, 0, 1] ∧
    CheckIP NewIPChecker HttpResult.transportError "2001:db8::1" =
      (NewIPChecker, 0, Except.error CheckError.notIPv4) :=
  ⟨by decide, by decide,
   ipv6_literal_not_ipv4 NewIPChecker HttpResult.transportError "2001:db8::1"
     [32, 1, 13, 184, 0, 0, 0, 0, 0, 0, 0, 0, 0, 0, 0, 1]
     (by decide) (by decide) (by decide)⟩

/-- An empty member list leaves every field at its current value. -/
theorem updField_nil (tag : String) (cur : List String) :
    updField [] tag cur = cur := rfl

/-- The last value for a tag in a cons: the last value in the tail when one
exists, otherwise the head if its folded key matches. -/
theorem lastTagValue_cons (k : String) (v : Json) (rest : List (String × Json))
    (tag : String) :
    lastTagValue ((k, v) :: rest) tag =
      match lastTagValue rest tag with
      | some w => some w
      | none => if asciiLower k == tag then some v else none := by
  unfold lastTagValue
  rw [List.reverse_cons, find?_append_split]
  cases hf : rest.reverse.find? (fun p => asciiLower p.1 == tag) with
  | none => cases hk : (asciiLower k == tag) <;> simp [List.find?, hk, hf]
  | some p => simp [hf]

/-- A member whose folded key is another tag does not affect this tag's
field value. -/
theorem updField_cons_ne (k : String) (v : Json) (rest : List (String × Json))
    (tag : String) (cur : List String) (h : ¬ asciiLower k = tag) :
    updField ((k, v) :: rest) tag cur = updField rest tag cur := by
  unfold updField
  rw [lastTagValue_cons]
  cases hf : lastTagValue rest tag <;> simp [hf, h]

/-- A member whose folded key is this tag sets the field's base value,
which a later duplicate may still overwrite. -/
theorem updField_cons_eq (k : String) (v : Json) (rest : List (String × Json))
    (tag : String) (cur l : List String)
    (hk : asciiLower k = tag) (hl : decodeStringList v = some l)
    (hrest : ∀ p ∈ rest, asciiLower p.1 = tag → (decodeStringList p.2).isSome = true) :
    updField ((k, v) :: rest) tag cur = updField rest tag l := by
  unfold updField
  rw [lastTagValue_cons]
  cases hf : lastTagValue rest tag with
  | none => simp [hk, hl]
  | some w =>
    obtain ⟨p, hpmem, hptag, hpw⟩ :
        ∃ p, p ∈ rest ∧ asciiLower p.1 = tag ∧ p.2 = w := by
      unfold lastTagValue at hf
      cases hq : rest.reverse.find? (fun p => asciiLower p.1 == tag) with
      | none => rw [hq] at hf; exact absurd hf (by simp)
      | some p =>
        rw [hq] at hf
        refine ⟨p, List.mem_reverse.mp (List.mem_of_find?_eq_some hq), ?_, ?_⟩
        · simpa using List.find?_some hq
        · simpa using hf
    obtain ⟨lw, hlw⟩ := Option.isSome_iff_exists.mp (hrest p hpmem hptag)
    rw [hpw] at hlw
    simp [hlw]


/-- Folding well-typed members over any starting struct sets every field to
the decoded last value its tag receives, keeping the starting value for
absent tags; unknown keys are ignored. -/
theorem decodeObj_spec (kvs : List (String × Json)) : ∀ (m : GitHubMeta),
    (∀ p ∈ kvs, asciiLower p.1 ∈ fieldTags → (decodeStringList p.2).isSome = true) →
    decodeObj m kvs = some ⟨updField kvs "hooks" m.Hooks, updField kvs "web" m.Web,
      updField kvs "api" m.Api, updField kvs "git" m.Git,
      updField kvs "packages" m.Packages, updField kvs "pages" m.Pages,
      updField kvs "importer" m.Importer, updField kvs "actions" m.Actions,
      updField kvs "dependabot" m.Dependabot,
      updField kvs "actions_ipv4" m.ActionsIPv4⟩ := by
  induction kvs with
  | nil =>
    intro m _
    simp [decodeObj, updField_nil]
  | cons pv rest ih =>
    obtain ⟨k, v⟩ := pv
    intro m hwt
    have hrest : ∀ p ∈ rest, asciiLower p.1 ∈ fieldTags →
        (decodeStringList p.2).isSome = true :=
      fun p hp => hwt p (List.mem_cons_of_mem _ hp)
    by_cases h1 : asciiLower k = "hooks"
    · obtain ⟨l, hl⟩ := Option.isSome_iff_exists.mp
        (hwt (k, v) (List.mem_cons_self _ _) (by rw [h1]; decide))
      simp [decodeObj, applyKey, h1, hl]
      rw [ih _ hrest]
      simp only [Option.some.injEq, GitHubMeta.mk.injEq]
      refine ⟨?_, ?_, ?_, ?_, ?_, ?_, ?_, ?_, ?_, ?_⟩ <;>
        first
          | exact (updField_cons_eq k v rest _ _ l h1 hl
              (fun p hp he => hrest p hp (by rw [he]; decide))).symm
          | exact (updField_cons_ne k v rest _ _ (by rw [h1]; decide)).symm
    by_cases h2 : asciiLower k = "web"
    · obtain ⟨l, hl⟩ := Option.isSome_iff_exists.mp
        (hwt (k, v) (List.mem_cons_self _ _) (by rw [h2]; decide))
      simp [decodeObj, applyKey, h1, h2, hl]
      rw [ih _ hrest]
      simp only [Option.some.injEq, GitHubMeta.mk.injEq]
      refine ⟨?_, ?_, ?_, ?_, ?_, ?_, ?_, ?_, ?_, ?_⟩ <;>
        first
          | exact (updField_cons_eq k v rest _ _ l h2 hl
              (fun p hp he => hrest p hp (by rw [he]; decide))).symm
          | exact (updField_cons_ne k v rest _ _ (by rw [h2]; decide)).symm
    by_cases h3 : asciiLower k = "api"
    · obtain ⟨l, hl⟩ := Option.isSome_iff_exists.mp
        (hwt (k, v) (List.mem_cons_self _ _) (by rw [h3]; decide))
      simp [decodeObj, applyKey, h1, h2, h3, hl]
      rw [ih _ hrest]
      simp only [Option.some.injEq, GitHubMeta.mk.injEq]
      refine ⟨?_, ?_, ?_, ?_, ?_, ?_, ?_, ?_, ?_, ?_⟩ <;>
        first
          | exact (updField_cons_eq k v rest _ _ l h3 hl
              (fun p hp he => hrest p hp (by rw [he]; decide))).symm
          | exact (updField_cons_ne k v rest _ _ (by rw [h3]; decide)).symm
    by_cases h4 : asciiLower k = "git"
    · obtain ⟨l, hl⟩ := Option.isSome_iff_exists.mp
        (hwt (k, v) (List.mem_cons_self _ _) (by rw [h4]; decide))
      simp [decodeObj, applyKey, h1, h2, h3, h4, hl]
      rw [ih _ hrest]
      simp only [Option.some.injEq, GitHubMeta.mk.injEq]
      refine ⟨?_, ?_, ?_, ?_, ?_, ?_, ?_, ?_, ?_, ?_⟩ <;>
        first
          | exact (updField_cons_eq k v rest _ _ l h4 hl
              (fun p hp he => hrest p hp (by rw [he]; decide))).symm
          | exact (updField_cons_ne k v rest _ _ (by rw [h4]; decide)).symm
    by_cases h5 : asciiLower k = "packages"
    · obtain ⟨l, hl⟩ := Option.isSome_iff_exists.mp
        (hwt (k, v) (List.mem_cons_self _ _) (by rw [h5]; decide))
      simp [decodeObj, applyKey, h1, h2, h3, h4, h5, hl]
      rw [ih _ hrest]
      simp only [Option.some.injEq, GitHubMeta.mk.injEq]
      refine ⟨?_, ?_, ?_, ?_, ?_, ?_, ?_, ?_, ?_, ?_⟩ <;>
        first
          | exact (updField_cons_eq k v rest _ _ l h5 hl
              (fun p hp he => hrest p hp (by rw [he]; decide))).symm
          | exact (updField_cons_ne k v rest _ _ (by rw [h5]; decide)).symm
    by_cases h6 : asciiLower k = "pages"
    · obtain ⟨l, hl⟩ := Option.isSome_iff_exists.mp
        (hwt (k, v) (List.mem_cons_self _ _) (by rw [h6]; decide))
      simp [decodeObj, applyKey, h1, h2, h3, h4, h5, h6, hl]
      rw [ih _ hrest]
      simp only [Option.some.injEq, GitHubMeta.mk.injEq]
      refine ⟨?_, ?_, ?_, ?_, ?_, ?_, ?_, ?_, ?_, ?_⟩ <;>
        first
          | exact (updField_cons_eq k v rest _ _ l h6 hl
              (fun p hp he => hrest p hp (by rw [he]; decide))).symm
          | exact (updField_cons_ne k v rest _ _ (by rw [h6]; decide)).symm
    by_cases h7 : asciiLower k = "importer"
    · obtain ⟨l, hl⟩ := Option.isSome_iff_exists.mp
        (hwt (k, v) (List.mem_cons_self _ _) (by rw [h7]; decide))
      simp [decodeObj, applyKey, h1, h2, h3, h4, h5, h6, h7, hl]
      rw [ih _ hrest]
      simp only [Option.some.injEq, GitHubMeta.mk.injEq]
      refine ⟨?_, ?_, ?_, ?_, ?_, ?_, ?_, ?_, ?_, ?_⟩ <;>
        first
          | exact (updField_cons_eq k v rest _ _ l h7 hl
              (fun p hp he => hrest p hp (by rw [he]; decide))).symm
          | exact (updField_cons_ne k v rest _ _ (by rw [h7]; decide)).symm
    by_cases h8 : asciiLower k = "actions"
    · obtain ⟨l, hl⟩ := Option.isSome_iff_exists.mp
        (hwt (k, v) (List.mem_cons_self _ _) (by rw [h8]; decide))
      simp [decodeObj, applyKey, h1, h2, h3, h4, h5, h6, h7, h8, hl]
      rw [ih _ hrest]
      simp only [Option.some.injEq, GitHubMeta.mk.injEq]
      refine ⟨?_, ?_, ?_, ?_, ?_, ?_, ?_, ?_, ?_, ?_⟩ <;>
        first
          | exact (updField_cons_eq k v rest _ _ l h8 hl
              (fun p hp he => hrest p hp (by rw [he]; decide))).symm
          | exact (updField_cons_ne k v rest _ _ (by rw [h8]; decide)).symm
    by_cases h9 : asciiLower k = "dependabot"
    · obtain ⟨l, hl⟩ := Option.isSome_iff_exists.mp
        (hwt (k, v) (List.mem_cons_self _ _) (by rw [h9]; decide))
      simp [decodeObj, applyKey, h1, h2, h3, h4, h5, h6, h7, h8, h9, hl]
      rw [ih _ hrest]
      simp only [Option.some.injEq, GitHubMeta.mk.injEq]
      refine ⟨?_, ?_, ?_, ?_, ?_, ?_, ?_, ?_, ?_, ?_⟩ <;>
        first
          | exact (updField_cons_eq k v rest _ _ l h9 hl
              (fun p hp he => hrest p hp (by rw [he]; decide))).symm
          | exact (updField_cons_ne k v rest _ _ (by rw [h9]; decide)).symm
    by_cases h10 : asciiLower k = "actions_ipv4"
    · obtain ⟨l, hl⟩ := Option.isSome_iff_exists.mp
        (hwt (k, v) (List.mem_cons_self _ _) (by rw [h10]; decide))
      simp [decodeObj, applyKey, h1, h2, h3, h4, h5, h6, h7, h8, h9, h10, hl]
      rw [ih _ hrest]
      simp only [Option.some.injEq, GitHubMeta.mk.injEq]
      refine ⟨?_, ?_, ?_, ?_, ?_, ?_, ?_, ?_, ?_, ?_⟩ <;>
        first
          | exact (updField_cons_eq k v rest _ _ l h10 hl
              (fun p hp he => hrest p hp (by rw [he]; decide))).symm
          | exact (updField_cons_ne k v rest _ _ (by rw [h10]; decide)).symm
    · simp [decodeObj, applyKey, h1, h2, h3, h4, h5, h6, h7, h8, h9, h10]
      rw [ih _ hrest]
      simp only [Option.some.injEq, GitHubMeta.mk.injEq]
      refine ⟨?_, ?_, ?_, ?_, ?_, ?_, ?_, ?_, ?_, ?_⟩ <;>
        exact (updField_cons_ne k v rest _ _ (by assumption)).symm

/-- C10: a well-formed JSON object whose members for the ten category tags
(if any) are string arrays or null decodes successfully, whatever tags it
omits and whatever extra keys it contains: each missing category becomes
the empty range list, each present category becomes the decoded value, and
extra keys are ignored. -/
theorem decode_missing_keys_ok (kvs : List (String × Json))
    (hwt : ∀ p ∈ kvs, asciiLower p.1 ∈ fieldTags → (decodeStringList p.2).isSome = true) :
    decodeGitHubMeta (Json.obj kvs) =
      some ⟨specField kvs "hooks", specField kvs "web", specField kvs "api",
        specField kvs "git", specField kvs "packages", specField kvs "pages",
        specField kvs "importer", specField kvs "actions",
        specField kvs "dependabot", specField kvs "actions_ipv4"⟩ := by
  have h := decodeObj_spec kvs emptyMeta hwt
  simpa [decodeGitHubMeta, specField, emptyMeta] using h

/-- Witness for C10: an object with only one category key and an unknown
key decodes to that category's ranges with every other category empty. -/
theorem decode_missing_keys_ok_witness :
    (∀ p ∈ [("hooks", Json.arr [Json.str "192.30.252.0/22"]), ("extra", Json.num 7)],
      asciiLower p.1 ∈ fieldTags → (decodeStringList p.2).isSome = true) ∧
    decodeGitHubMeta (Json.obj
        [("hooks", Json.arr [Json.str "192.30.252.0/22"]), ("extra", Json.num 7)]) =
      some (sampleMeta ["192.30.252.0/22"] [] []) := by
  constructor
  · decide
  · have h := decode_missing_keys_ok
      [("hooks", Json.arr [Json.str "192.30.252.0/22"]), ("extra", Json.num 7)]
      (by decide)
    rw [h]
    decide
